import Mathlib

/-!
Verification of the court-data-fetcher core (scraper.py, routes.py) against its
natural-language specification.  The Python source is shallowly embedded:
pure string processing (the regex-based field extractors, the link extractor,
filename derivation) is translated into executable Lean functions on `List Char`;
the effectful scraping pipeline is modelled by explicit environment records
describing what the external world (browser driver, HTTP) does, with Python
exceptions rendered as `Except String`; the database-backed cache of routes.py
is modelled as a list of records with integer timestamps.
-/

namespace CourtFetcher

/-! ## Character and string utilities (Python semantics helpers) -/
/-- ASCII lower-casing, the relevant fragment of Python `str.lower()`. -/
def lowerAscii (c : Char) : Char :=
  if 'A' ≤ c ∧ c ≤ 'Z' then Char.ofNat (c.toNat + 32) else c

/-- Python `\s` / `str.strip()` whitespace: space, tab, newline, CR, VT, FF. -/
def isPySpace (c : Char) : Bool :=
  c = ' ' ∨ c = '\t' ∨ c = '\n' ∨ c = '\r' ∨ c = '\x0b' ∨ c = '\x0c'

/-- ASCII decimal digit, Python `\d` (ASCII fragment). -/
def isDigitCh (c : Char) : Bool := '0' ≤ c ∧ c ≤ '9'

/-- A character matched by the regex class `[:\s]`. -/
def isColonSpace (c : Char) : Bool := c = ':' ∨ isPySpace c

/-- A character matched by the regex class `[^<\n\r]` (the capture class of the
parties/status patterns). -/
def isCapCh (c : Char) : Bool := ¬ (c = '<' ∨ c = '\n' ∨ c = '\r')

/-- Python `str.strip()`. -/
def pyStrip (cs : List Char) : List Char :=
  ((cs.dropWhile isPySpace).reverse.dropWhile isPySpace).reverse

/-- Case-insensitive "the lower-cased pattern `pat` is a prefix of `cs`"
(`cs` is lowered character-wise; `pat` must already be lower-case). -/
def isPrefixCI : List Char → List Char → Bool
  | [], _ => true
  | _ :: _, [] => false
  | p :: ps, c :: cs => lowerAscii c = p && isPrefixCI ps cs

/-- Case-insensitive substring test: Python `pat in s.lower()`
(`pat` already lower-case). -/
def containsCI (pat : List Char) : List Char → Bool
  | [] => isPrefixCI pat []
  | cs@(_ :: rest) => isPrefixCI pat cs || containsCI pat rest

/-- Case-sensitive prefix test. -/
def isPrefixCS : List Char → List Char → Bool
  | [], _ => true
  | _ :: _, [] => false
  | p :: ps, c :: cs => c = p && isPrefixCS ps cs

/-- Case-sensitive substring test, Python `pat in s`. -/
def containsCS (pat : List Char) : List Char → Bool
  | [] => isPrefixCS pat []
  | cs@(_ :: rest) => isPrefixCS pat cs || containsCS pat rest

/-- Case-sensitive Python `s.endswith(suf)`. -/
def endsWithCS (suf cs : List Char) : Bool := isPrefixCS suf.reverse cs.reverse

/-- Python `s.lower().endswith(suf)` for an already-lower-case `suf`. -/
def endsWithCI (suf cs : List Char) : Bool := isPrefixCI suf.reverse cs.reverse

/-- `'; '.join`-style interspersion. -/
def joinWith (sep : List Char) : List (List Char) → List Char
  | [] => []
  | [x] => x
  | x :: xs => x ++ sep ++ joinWith sep xs

/-! ## A small matching engine for the source's regular expressions

scraper.py uses Python `re` with a fixed set of patterns of two shapes:
  * date patterns    `<label>[:\s]*(\d{1,2}[-\/]\d{1,2}[-\/]\d{2,4})`
  * capture patterns `<label>[:\s]*([^<\n\r]+)`
where `<label>` is a sequence of literal words joined by `\s+`, matched with
`re.IGNORECASE`.  The engine below implements exactly these two pattern shapes
with Python's leftmost-match, greedy-with-backtracking semantics.  Where
greediness cannot interact with what follows (e.g. `\s+` before a literal
letter, or `[:\s]*` before a digit), maximal munch coincides with Python's
backtracking and is used directly; the one genuinely backtracking spot,
`[:\s]*` before the capture class `[^<\n\r]+`, is implemented by explicit
backtracking (`capBacktrack`). -/
/-- Match one literal word case-insensitively at the head; returns the rest.
The word is given lower-case; the text is lowered character-wise. -/
def matchWordCI : List Char → List Char → Option (List Char)
  | [], cs => some cs
  | _ :: _, [] => none
  | p :: ps, c :: cs => if lowerAscii c = p then matchWordCI ps cs else none

/-- Match `\s+` at the head (maximal munch; exact here because every label
word that follows starts with a letter, which `\s` cannot match). -/
def matchSpaces1 : List Char → Option (List Char)
  | [] => none
  | c :: cs => if isPySpace c then some (cs.dropWhile isPySpace) else none

/-- Match a label `w₁\s+w₂\s+…\s+wₙ` at the head, case-insensitively
(`\s+` only between consecutive words). -/
def matchLabel : List (List Char) → List Char → Option (List Char)
  | [], cs => some cs
  | [w], cs => matchWordCI w cs
  | w :: w2 :: ws, cs =>
    (matchWordCI w cs).bind fun r => (matchSpaces1 r).bind (matchLabel (w2 :: ws))

/-- Match `\d{1,2}` followed by a non-digit: digit-run reasoning replaces
backtracking exactly, because the separator that follows can never match a
digit, so `\d{1,2}` succeeds iff the maximal digit run has length 1 or 2. -/
def matchTwoDigits (cs : List Char) : Option (List Char × List Char) :=
  let d := cs.takeWhile isDigitCh
  if 1 ≤ d.length ∧ d.length ≤ 2 then some (d, cs.dropWhile isDigitCh)
  else none

/-- Match `[-\/]` at the head. -/
def matchSep : List Char → Option (Char × List Char)
  | [] => none
  | c :: rest => if c = '-' ∨ c = '/' then some (c, rest) else none

/-- Match the year part `\d{2,4}`: greedily up to 4 digits of the maximal
digit run, at least 2 (nothing follows the capture, so maximal munch is
exact). -/
def matchYear (cs : List Char) : Option (List Char × List Char) :=
  let d := cs.takeWhile isDigitCh
  if 2 ≤ d.length then some (d.take 4, d.drop 4 ++ cs.dropWhile isDigitCh)
  else none

/-- Match the date capture `\d{1,2}[-\/]\d{1,2}[-\/]\d{2,4}` at the head;
returns (captured token, rest after the match). -/
def matchDate (cs : List Char) : Option (List Char × List Char) :=
  (matchTwoDigits cs).bind fun dr1 =>
  (matchSep dr1.2).bind fun sr1 =>
  (matchTwoDigits sr1.2).bind fun dr2 =>
  (matchSep dr2.2).bind fun sr2 =>
  (matchYear sr2.2).map fun yr =>
    (dr1.1 ++ sr1.1 :: dr2.1 ++ sr2.1 :: yr.1, yr.2)

/-- Match a full date pattern `<label>[:\s]*(date)` at the head of `cs`.
`[:\s]*` is maximal-munch (exact: a digit is neither `:` nor `\s`). -/
def matchDatePatAt (words : List (List Char)) (cs : List Char) :
    Option (List Char) :=
  (matchLabel words cs).bind fun r =>
    (matchDate (r.dropWhile isColonSpace)).map Prod.fst

/-- `re.search` for a date pattern: scan start positions left to right. -/
def searchDatePat (words : List (List Char)) : List Char → Option (List Char)
  | [] => none
  | cs@(_ :: rest) =>
    match matchDatePatAt words cs with
    | some cap => some cap
    | none => searchDatePat words rest

/-- Greedy capture `([^<\n\r]+)` at the head: requires at least one admissible
character; takes the maximal run.  Returns (capture, rest). -/
def capHere (cs : List Char) : Option (List Char × List Char) :=
  match cs with
  | [] => none
  | c :: _ =>
    if isCapCh c then some (cs.takeWhile isCapCh, cs.dropWhile isCapCh)
    else none

/-- Backtracking for `[:\s]*([^<\n\r]+)`: Python first lets `[:\s]*` take its
maximal run and, when the capture cannot start there, gives characters back
one at a time.  `runRev` is the reversed still-releasable run, `tail` the text
after the consumed part. -/
def capBacktrack (runRev tail : List Char) : Option (List Char × List Char) :=
  match capHere tail with
  | some r => some r
  | none =>
    match runRev with
    | [] => none
    | c :: rs => capBacktrack rs (c :: tail)

/-- Match a capture pattern `<label>[:\s]*([^<\n\r]+)` at the head.
Returns (capture, rest after the whole match). -/
def matchCapPatAt (words : List (List Char)) (cs : List Char) :
    Option (List Char × List Char) :=
  (matchLabel words cs).bind fun r =>
    capBacktrack (r.takeWhile isColonSpace).reverse (r.dropWhile isColonSpace)

/-- `re.search` for a capture pattern. -/
def searchCapPat (words : List (List Char)) : List Char → Option (List Char)
  | [] => none
  | cs@(_ :: rest) =>
    match matchCapPatAt words cs with
    | some (cap, _) => some cap
    | none => searchCapPat words rest

/-- `re.findall` for a capture pattern: non-overlapping matches scanning left
to right, resuming after each match's end.  `fuel` bounds the recursion; each
step strictly shortens the text (a match consumes at least its nonempty
label), so `fuel = cs.length` recovers Python's behaviour. -/
def findAllCapPat (words : List (List Char)) :
    Nat → List Char → List (List Char)
  | 0, _ => []
  | _ + 1, [] => []
  | fuel + 1, cs@(_ :: rest) =>
    match matchCapPatAt words cs with
    | some (cap, rest2) => cap :: findAllCapPat words fuel rest2
    | none => findAllCapPat words fuel rest

/-! ## Field extractors (scraper.py `_extract_parties`, `_extract_filing_date`,
`_extract_next_hearing`, `_extract_case_status`)

Each extractor receives the document text (`soup.get_text()` in the source;
HTML-to-text conversion is done by the external BeautifulSoup library, so the
embedding works at the text level). -/
/-- The role labels of `_extract_parties`' five patterns
`role[:\s]*([^<\n\r]+)`, in source order. -/
def partyLabels : List (List Char) :=
  ["petitioner".data, "respondent".data, "appellant".data,
   "plaintiff".data, "defendant".data]

/-- `_extract_parties`: lower-cases the text, runs `re.findall` for each role
pattern in order, strips each captured group, joins all matches with `"; "`,
and falls back to the sentinel when no pattern matched anything. -/
def extractParties (text : String) : String :=
  let cs := text.data.map lowerAscii
  let parties := partyLabels.foldl
    (fun acc w => acc ++ (findAllCapPat [w] cs.length cs).map pyStrip) []
  if parties.isEmpty then "Parties information not found"
  else String.mk (joinWith (';' :: ' ' :: []) parties)

/-- The three filing-date patterns' labels, in source order:
`filed\s+on`, `filing\s+date`, `date\s+of\s+filing`. -/
def filingDateLabels : List (List (List Char)) :=
  [["filed".data, "on".data],
   ["filing".data, "date".data],
   ["date".data, "of".data, "filing".data]]

/-- The three next-hearing patterns' labels, in source order:
`next\s+hearing`, `next\s+date`, `hearing\s+date`. -/
def nextHearingLabels : List (List (List Char)) :=
  [["next".data, "hearing".data],
   ["next".data, "date".data],
   ["hearing".data, "date".data]]

/-- First `re.search` that succeeds over an ordered list of date patterns. -/
def searchFirstDate : List (List (List Char)) → List Char → Option (List Char)
  | [], _ => none
  | p :: ps, cs =>
    match searchDatePat p cs with
    | some cap => some cap
    | none => searchFirstDate ps cs

/-- `_extract_filing_date`: ordered date patterns, first match's capture wins,
sentinel otherwise. -/
def extractFilingDate (text : String) : String :=
  match searchFirstDate filingDateLabels text.data with
  | some cap => String.mk cap
  | none => "Filing date not found"

/-- `_extract_next_hearing`: ordered date patterns, first match's capture
wins, sentinel otherwise. -/
def extractNextHearing (text : String) : String :=
  match searchFirstDate nextHearingLabels text.data with
  | some cap => String.mk cap
  | none => "Next hearing date not found"

/-- The three status patterns' labels, in source order:
`status`, `stage`, `current\s+status`. -/
def statusLabels : List (List (List Char)) :=
  [["status".data], ["stage".data], ["current".data, "status".data]]

/-- First `re.search` that succeeds over an ordered list of capture
patterns. -/
def searchFirstCap : List (List (List Char)) → List Char → Option (List Char)
  | [], _ => none
  | p :: ps, cs =>
    match searchCapPat p cs with
    | some cap => some cap
    | none => searchFirstCap ps cs

/-- `_extract_case_status`: ordered capture patterns, first match's capture
(stripped) wins, sentinel otherwise. -/
def extractCaseStatus (text : String) : String :=
  match searchFirstCap statusLabels text.data with
  | some cap => String.mk (pyStrip cap)
  | none => "Case status not found"

/-! ## Link extractor (scraper.py `_extract_pdf_links`)

Anchors (`soup.find_all('a', href=True)`) are supplied by the external HTML
parsing library, so the embedding receives them as a list of
(href, visible text) pairs.  `urljoin` is the Python standard library's
relative-reference resolution; `urlJoin` below implements its three common
cases (absolute reference, root-relative reference, relative reference merged
onto the base's directory), without dot-segment normalization. -/
structure Anchor where
  href : String
  text : String
deriving DecidableEq, Repr

structure PdfLink where
  url : String
  text : String
deriving DecidableEq, Repr

/-- Does the string contain a scheme separator "://"? -/
def hasScheme (url : List Char) : Bool := containsCS "://".data url

/-- Everything up to and including the last '/' (used to merge a relative
reference onto its base). -/
def upToLastSlash (cs : List Char) : List Char :=
  (cs.reverse.dropWhile (fun c => ¬ c = '/')).reverse

/-- Split a URL at the first "://": returns (scheme part, remainder). -/
def splitAtSchemeSep : List Char → Option (List Char × List Char)
  | [] => none
  | c :: rest =>
    if isPrefixCS "://".data (c :: rest) then some ([], (c :: rest).drop 3)
    else match splitAtSchemeSep rest with
      | none => none
      | some (pre, post) => some (c :: pre, post)

/-- The scheme and authority of an absolute URL: through the first '/' after
"://", exclusive. -/
def schemeAndAuthority (cs : List Char) : List Char :=
  match splitAtSchemeSep cs with
  | none => cs
  | some (pre, post) =>
    pre ++ "://".data ++ post.takeWhile (fun c => ¬ c = '/')

/-- Python `urllib.parse.urljoin`, restricted to the cases above. -/
def urlJoin (base url : String) : String :=
  if url.data = [] then base
  else if hasScheme url.data then url
  else if isPrefixCS "/".data url.data then
    String.mk (schemeAndAuthority base.data ++ url.data)
  else String.mk (upToLastSlash base.data ++ url.data)

/-- The keyword list of `_extract_pdf_links`' anchor-text test. -/
def linkTextKeywords : List (List Char) :=
  ["order".data, "judgment".data, "download".data, "pdf".data]

/-- The qualification test of `_extract_pdf_links` (line 430-432 of
scraper.py): href ends with ".pdf" case-insensitively, or href contains "pdf"
case-insensitively, or the stripped anchor text contains a keyword
case-insensitively. -/
def isDocLink (href strippedText : List Char) : Bool :=
  endsWithCI ".pdf".data href || containsCI "pdf".data href ||
    linkTextKeywords.any (fun kw => containsCI kw strippedText)

/-- The dict appended for one qualifying anchor: URL resolved against the
base, label the stripped anchor text or "Download PDF" when that is empty
(Python `link_text or 'Download PDF'`). -/
def mkPdfLink (baseUrl : String) (a : Anchor) : PdfLink :=
  { url := urlJoin baseUrl a.href,
    text := if (pyStrip a.text.data).isEmpty then "Download PDF"
            else String.mk (pyStrip a.text.data) }

/-- `_extract_pdf_links`: loop over anchors appending qualifying links. -/
def extractPdfLinks (anchors : List Anchor) (baseUrl : String) :
    List PdfLink :=
  anchors.foldl
    (fun acc a =>
      if isDocLink a.href.data (pyStrip a.text.data) then
        acc ++ [mkPdfLink baseUrl a]
      else acc)
    []

/-! ## Python-value model for the source's result dictionaries

scraper.py communicates through heterogeneous Python dicts whose key sets
differ between the success and failure branches; an association-list model
keeps that observable. -/
inductive PyVal where
  | s : String → PyVal
  | b : Bool → PyVal
  | n : Nat → PyVal
  | links : List PdfLink → PyVal
deriving DecidableEq, Repr

/-- A Python dict (keys in insertion order). -/
abbrev PyDict := List (String × PyVal)

/-- Dict lookup (first binding wins; the modelled dicts never rebind). -/
def dget (d : PyDict) (k : String) : Option PyVal :=
  match d.find? (fun kv => kv.1 = k) with
  | some kv => some kv.2
  | none => none

/-- The key list of a dict, in insertion order. -/
def dkeys (d : PyDict) : List String := d.map Prod.fst

/-! ## Document fetcher (scraper.py `download_pdf`,
`_extract_filename_from_url`) -/
/-- What the external HTTP layer did for one request: either a transport-level
failure (`requests` exception, including a non-2xx status surfaced by
`raise_for_status`) or a response with an optional Content-Type header and a
body. -/
inductive HttpOutcome where
  | exc : String → HttpOutcome
  | resp : Option String → String → HttpOutcome
deriving DecidableEq, Repr

/-- `urlparse(url).path`: the path component — after the authority when a
"://" separator is present, up to any query ('?') or fragment ('#'). -/
def urlPath (url : List Char) : List Char :=
  let afterAuthority :=
    match splitAtSchemeSep url with
    | none => url
    | some (_, post) => post.dropWhile (fun c => ¬ c = '/')
  afterAuthority.takeWhile (fun c => ¬ (c = '?' ∨ c = '#'))

/-- `path.split('/')[-1]`: the last '/'-separated segment. -/
def lastSegment (cs : List Char) : List Char :=
  cs.foldl (fun acc c => if c = '/' then [] else acc ++ [c]) []

/-- `_extract_filename_from_url`: last path segment if it already ends in
".pdf" (case-sensitively, as in the source), else a generated
`court_document_<int(time.time())>.pdf` name.  `now` stands for
`int(time.time())`. -/
def extractFilenameFromUrl (url : String) (now : Nat) : String :=
  let filename := lastSegment (urlPath url.data)
  if filename.isEmpty || ! endsWithCS ".pdf".data filename then
    "court_document_" ++ toString now ++ ".pdf"
  else String.mk filename

/-- `download_pdf`: transport failures become `success=False` dicts; a
response whose Content-Type does not contain "pdf" (case-insensitively) for a
URL not ending in ".pdf" (case-insensitively) is rejected; otherwise a success
dict with content, size and derived filename. -/
def downloadPdf (pdfUrl : String) (now : Nat) (o : HttpOutcome) : PyDict :=
  match o with
  | .exc e =>
    [("success", .b false), ("error", .s ("Download failed: " ++ e))]
  | .resp contentTypeHdr content =>
    let contentType := ((contentTypeHdr.getD "").data.map lowerAscii)
    if ¬ containsCS "pdf".data contentType ∧
        ¬ endsWithCI ".pdf".data pdfUrl.data then
      [("success", .b false),
       ("error", .s "URL does not point to a PDF file")]
    else
      [("success", .b true), ("content", .s content),
       ("size", .n content.length),
       ("filename", .s (extractFilenameFromUrl pdfUrl now))]

/-! ## Fetch orchestrator (scraper.py `scrape_case_data`,
`_scrape_with_selenium`, `_search_case_with_selenium`, `_handle_captcha`,
`_parse_case_details`, `_scrape_with_requests`)

The browser session is external, so its behaviour is an explicit environment:
which driver operations raise, whether a submit button was found, whether a
CAPTCHA-like element is present, and the post-submission page.  A parsed page
is a `Soup`: its raw markup, its visible text (`soup.get_text()`), and its
href-carrying anchors (`soup.find_all('a', href=True)`), the three projections
of the external HTML library the source uses. -/
structure Soup where
  raw : String
  text : String
  anchors : List Anchor
deriving DecidableEq, Repr

/-- The external behaviour of one dynamic-path attempt. -/
structure DriveEnv where
  /-- `setup_driver` raises (Chrome could not start). -/
  setupErr : Option String
  /-- `driver.get(case_status_url)` raises (navigation failure). -/
  navErr : Option String
  /-- a `TimeoutException` occurs inside `_search_case_with_selenium`. -/
  timedOut : Bool
  /-- some other exception occurs inside `_search_case_with_selenium`. -/
  stepErr : Option String
  /-- a submit control was found (`search_buttons` nonempty). -/
  hasButton : Bool
  /-- a CAPTCHA-like element is present on the form page. -/
  captchaPresent : Bool
  /-- the page the driver ends up on (`driver.page_source`). -/
  page : Soup
  /-- `driver.current_url` when parsing the result. -/
  currentUrl : String
deriving DecidableEq, Repr

/-- `_handle_captcha`: reports `False` when a CAPTCHA-like element is found
(manual intervention would be needed), `True` otherwise; it never raises and
does not interact with the page further. -/
def handleCaptcha (env : DriveEnv) : Bool := ¬ env.captchaPresent

/-- The negative keyword set of `_search_case_with_selenium` (line 234-237). -/
def notFoundKeywords : List String :=
  ["no records found", "case not found", "invalid case",
   "record not found", "no case found"]

/-- The positive keyword set of `_search_case_with_selenium` (line 245-248). -/
def detailsKeywords : List String :=
  ["case details", "petitioner", "respondent", "hearing",
   "order", "judgment", "parties"]

/-- `_search_case_with_selenium`: the two exception handlers first (they wrap
the whole body), then the submit-button check, then the post-submission page
classified by the negative and positive keyword sets against the lower-cased
markup.  The CAPTCHA-handling result is computed and — exactly as in the
source, line 219 — never used afterwards. -/
def searchCaseWithSelenium (env : DriveEnv)
    (caseType caseNumber : String) (filingYear : Int) : PyDict :=
  if env.timedOut then
    [("success", .b false),
     ("error", .s "Page load timeout - court website may be down"),
     ("html", .s env.page.raw)]
  else
    match env.stepErr with
    | some e =>
      [("success", .b false), ("error", .s ("Search failed: " ++ e)),
       ("html", .s env.page.raw)]
    | none =>
      let _captchaHandled := handleCaptcha env
      if env.hasButton then
        let currentHtml := env.page.raw.data.map lowerAscii
        if notFoundKeywords.any (fun k => containsCS k.data currentHtml) then
          [("success", .b false),
           ("error", .s "Case not found in court records"),
           ("html", .s env.page.raw)]
        else if detailsKeywords.any
            (fun k => containsCS k.data currentHtml) then
          [("success", .b true), ("html", .s env.page.raw)]
        else
          [("success", .b false),
           ("error", .s "Search form submitted but no case details found"),
           ("html", .s env.page.raw)]
      else
        [("success", .b false),
         ("error", .s "Could not find search button on the page"),
         ("html", .s env.page.raw)]

/-- `_parse_case_details`: assembles the success dict from the four field
extractors and the link extractor.  (Its `except` arm returns a
`success=False` dict with a "Failed to parse case details" message; the
modelled pure pipeline cannot fault, so the arm is unreachable here.) -/
def parseCaseDetails (page : Soup) (currentUrl : String) : PyDict :=
  [("success", .b true),
   ("parties_name", .s (extractParties page.text)),
   ("filing_date", .s (extractFilingDate page.text)),
   ("next_hearing_date", .s (extractNextHearing page.text)),
   ("case_status", .s (extractCaseStatus page.text)),
   ("pdf_links", .links (extractPdfLinks page.anchors currentUrl)),
   ("raw_html", .s page.raw)]

/-- The sample raw markup built by `_scrape_with_requests` (line 143-160). -/
def sampleRawHtml (caseType caseNumber : String) (filingYear : Int) :
    String :=
  "\n            <html>\n            <body>\n            <div class=\"case-details\">\n                <h3>Case Details for "
  ++ caseType ++ " " ++ caseNumber ++ "/" ++ toString filingYear
  ++ "</h3>\n                <p><strong>Petitioner:</strong> Sample Petitioner</p>\n                <p><strong>Respondent:</strong> Delhi State and Others</p>\n                <p><strong>Filing Date:</strong> 15-01-"
  ++ toString filingYear
  ++ "</p>\n                <p><strong>Next Hearing:</strong> 25-08-2025</p>\n                <p><strong>Status:</strong> Matter pending for arguments</p>\n                <div class=\"documents\">\n                    <a href=\"sample-order-1.pdf\">Interim Order</a>\n                    <a href=\"sample-judgment.pdf\">Final Judgment</a>\n                </div>\n            </div>\n            </body>\n            </html>\n            "

/-- `_scrape_with_requests`: the static fallback path.  It performs no
network interaction; it deterministically returns the fixed sample case dict
(demonstration mode) and cannot fail. -/
def scrapeWithRequests (caseType caseNumber : String) (filingYear : Int) :
    PyDict :=
  [("success", .b true),
   ("parties_name",
    .s "Petitioner: Sample Petitioner vs Respondent: Delhi State and Others"),
   ("filing_date", .s ("15-01-" ++ toString filingYear)),
   ("next_hearing_date", .s "25-08-2025"),
   ("case_status", .s "Matter pending for arguments"),
   ("pdf_links", .links
     [{ url := "https://delhihighcourt.nic.in/app/sample-order-1.pdf",
        text := "Interim Order dated 20-07-2025" },
      { url := "https://delhihighcourt.nic.in/app/sample-judgment.pdf",
        text := "Final Judgment dated 01-08-2025" }]),
   ("raw_html", .s (sampleRawHtml caseType caseNumber filingYear))]

/-- `_scrape_with_selenium`: raises (`.error`) exactly when `setup_driver` or
the navigation raises — `_search_case_with_selenium` catches all its own
exceptions and returns a dict instead.  On a successful search the result page
is parsed; otherwise the search's failure dict is returned as-is. -/
def scrapeWithSelenium (env : DriveEnv)
    (caseType caseNumber : String) (filingYear : Int) :
    Except String PyDict :=
  match env.setupErr with
  | some e => .error e
  | none =>
    match env.navErr with
    | some e => .error e
    | none =>
      let result := searchCaseWithSelenium env caseType caseNumber filingYear
      if dget result "success" = some (.b true) then
        .ok (parseCaseDetails env.page env.currentUrl)
      else .ok result

/-- The try/except structure of `scrape_case_data` (line 82-96), abstracted
over the two strategies' outcomes: return the dynamic result if it did not
raise; otherwise return the fallback result if that did not raise; otherwise
the combined-error dict.  Total: no exception escapes. -/
def scrapeCaseDataGen (dyn fb : Except String PyDict) : PyDict :=
  match dyn with
  | .ok d => d
  | .error seleniumError =>
    match fb with
    | .ok d => d
    | .error requestsError =>
      [("success", .b false),
       ("error", .s ("Both scraping methods failed. Selenium error: "
         ++ seleniumError ++ ", Requests error: " ++ requestsError)),
       ("html", .s "")]

/-- `scrape_case_data` with the source's actual strategies: the fallback is
`_scrape_with_requests`, which never raises. -/
def scrapeCaseData (env : DriveEnv)
    (caseType caseNumber : String) (filingYear : Int) : PyDict :=
  scrapeCaseDataGen (scrapeWithSelenium env caseType caseNumber filingYear)
    (.ok (scrapeWithRequests caseType caseNumber filingYear))

/-- `scrape_case_data`, additionally reporting whether the fallback path was
invoked (the Boolean is `true` exactly when control reached the
`except ... _scrape_with_requests` arm). -/
def scrapeCaseDataTraced (env : DriveEnv)
    (caseType caseNumber : String) (filingYear : Int) : PyDict × Bool :=
  match scrapeWithSelenium env caseType caseNumber filingYear with
  | .ok d => (d, false)
  | .error _ => (scrapeWithRequests caseType caseNumber filingYear, true)

/-! ## Result cache (routes.py `search_case`, lines 56-70, over the
`CaseQuery` model of models.py)

The persistent store is a list of `CaseQueryRec`s; `query_timestamp` is an
integer (epoch seconds).  The candidate query —
`CaseQuery.query.filter_by(case_type=…, case_number=…, filing_year=…,
success=True).order_by(CaseQuery.query_timestamp.desc()).first()` — executes
fine, but the freshness test that follows,
`cached_query.query_timestamp.timestamp() >
(db.func.now().timestamp() - 3600)`, cannot be executed:
`db.func.now()` is a SQLAlchemy SQL-function expression object with no
`.timestamp` attribute, so evaluating it raises an `AttributeError`.  Because
of the `cached_query and (...)` short-circuit, the raise happens exactly when
a candidate record exists; with no candidate the conjunction is falsy and the
route proceeds to scraping.  (The route's enclosing `except Exception` at
line 112 converts the raise into an error flash and a redirect.)  The lookup
is therefore modelled as `Except`-valued. -/
structure CaseQueryRec where
  caseType : String
  caseNumber : String
  filingYear : Int
  queryTimestamp : Int
  success : Bool
deriving DecidableEq, Repr

/-- Identity-and-success filter of the cache query. -/
def cacheCandidate (ct cn : String) (fy : Int) (r : CaseQueryRec) : Bool :=
  r.caseType = ct ∧ r.caseNumber = cn ∧ r.filingYear = fy ∧ r.success

/-- `order_by(query_timestamp.desc()).first()`: a record with the maximal
timestamp (ties broken arbitrarily, as by the database). -/
def pickLatest : List CaseQueryRec → Option CaseQueryRec
  | [] => none
  | r :: rs =>
    match pickLatest rs with
    | none => some r
    | some m => if r.queryTimestamp ≤ m.queryTimestamp then some m else some r

/-- The `AttributeError` raised by routes.py lines 65-66 when the freshness
test is evaluated (`db.func.now()` has no `.timestamp` attribute). -/
def cacheAttrError : String :=
  "AttributeError: db.func.now() has no attribute timestamp"

/-- The cache lookup of `search_case` as the code actually executes: the
candidate query succeeds, and then — whenever a candidate exists — the
freshness comparison raises `AttributeError` before any timestamp arithmetic
happens; with no candidate, `cached_query and (...)` short-circuits to falsy
and the lookup completes as a miss. -/
def cacheLookupAttempt (store : List CaseQueryRec) (ct cn : String)
    (fy : Int) : Except String (Option CaseQueryRec) :=
  match pickLatest (store.filter (cacheCandidate ct cn fy)) with
  | none => .ok none
  | some _ => .error cacheAttrError

/-! ## Concrete environments used by counterexample theorems -/
/-- A dynamic-path run in which the driver and navigation succeed but a
`TimeoutException` occurs during the search (`WebDriverWait` timeout). -/
def timeoutEnv : DriveEnv :=
  { setupErr := none, navErr := none, timedOut := true, stepErr := none,
    hasButton := true, captchaPresent := false,
    page := { raw := "<html><body>loading</body></html>",
              text := "loading", anchors := [] },
    currentUrl := "https://delhihighcourt.nic.in/app/get-case-type-status" }

/-- The shape of a date token accepted by the source's date capture: 1-2
digit day, 1-2 digit month, 2-to-4 digit year, separated by '-' or '/'. -/
def dateTokenShape (cap : List Char) : Prop :=
  ∃ (d mo y : List Char) (s1 s2 : Char),
    cap = d ++ s1 :: (mo ++ s2 :: y) ∧
    d.all isDigitCh = true ∧ mo.all isDigitCh = true ∧
    y.all isDigitCh = true ∧
    1 ≤ d.length ∧ d.length ≤ 2 ∧ 1 ≤ mo.length ∧ mo.length ≤ 2 ∧
    2 ≤ y.length ∧ y.length ≤ 4 ∧
    (s1 = '-' ∨ s1 = '/') ∧ (s2 = '-' ∨ s2 = '/')

/-- Modelled from the spec: the year rule as the claim words it — "2 or 4
digit year", i.e. the alternative `(\d{4}|\d{2})` in place of the source's
`\d{2,4}` (4 digits preferred, else exactly 2). -/
def matchYearSpec24 (cs : List Char) : Option (List Char × List Char) :=
  let d := cs.takeWhile isDigitCh
  if 4 ≤ d.length then some (d.take 4, d.drop 4 ++ cs.dropWhile isDigitCh)
  else if 2 ≤ d.length then
    some (d.take 2, d.drop 2 ++ cs.dropWhile isDigitCh)
  else none

/-- Modelled from the spec: `matchDate` with the claim's 2-or-4-digit year
rule. -/
def matchDateSpec24 (cs : List Char) : Option (List Char × List Char) :=
  (matchTwoDigits cs).bind fun dr1 =>
  (matchSep dr1.2).bind fun sr1 =>
  (matchTwoDigits sr1.2).bind fun dr2 =>
  (matchSep dr2.2).bind fun sr2 =>
  (matchYearSpec24 sr2.2).map fun yr =>
    (dr1.1 ++ sr1.1 :: dr2.1 ++ sr2.1 :: yr.1, yr.2)

/-- Modelled from the spec: date-pattern match at a position, with the
claim's year rule. -/
def matchDatePatAtSpec24 (words : List (List Char)) (cs : List Char) :
    Option (List Char) :=
  (matchLabel words cs).bind fun r =>
    (matchDateSpec24 (r.dropWhile isColonSpace)).map Prod.fst

/-- Modelled from the spec: leftmost search with the claim's year rule. -/
def searchDatePatSpec24 (words : List (List Char)) :
    List Char → Option (List Char)
  | [] => none
  | cs@(_ :: rest) =>
    match matchDatePatAtSpec24 words cs with
    | some cap => some cap
    | none => searchDatePatSpec24 words rest

/-- Modelled from the spec: first matching pattern of the ordered list, with
the claim's year rule. -/
def searchFirstDateSpec24 :
    List (List (List Char)) → List Char → Option (List Char)
  | [], _ => none
  | p :: ps, cs =>
    match searchDatePatSpec24 p cs with
    | some cap => some cap
    | none => searchFirstDateSpec24 ps cs

/-- Modelled from the spec: filing-date extraction accepting only 2- or
4-digit years, as the claim describes it. -/
def extractFilingDateSpec24 (text : String) : String :=
  match searchFirstDateSpec24 filingDateLabels text.data with
  | some cap => String.mk cap
  | none => "Filing date not found"

/-! Basic lemmas about the string utilities. -/
theorem isPrefixCS_append (p t : List Char) : isPrefixCS p (p ++ t) = true := by
  induction p with
  | nil => rfl
  | cons c cs ih => simp [isPrefixCS, ih]

theorem containsCS_nil (l : List Char) : containsCS [] l = true := by
  cases l <;> simp [containsCS, isPrefixCS]

theorem containsCS_self_append (pat post : List Char) :
    containsCS pat (pat ++ post) = true := by
  cases pat with
  | nil => simpa using containsCS_nil post
  | cons c cs =>
    rw [List.cons_append, containsCS]
    have : isPrefixCS (c :: cs) (c :: (cs ++ post)) = true := by
      simpa [isPrefixCS] using isPrefixCS_append cs post
    simp [this]

theorem containsCS_of_append (pre pat post : List Char) :
    containsCS pat (pre ++ pat ++ post) = true := by
  induction pre with
  | nil => simpa using containsCS_self_append pat post
  | cons c cs ih =>
    have : (c :: cs) ++ pat ++ post = c :: (cs ++ pat ++ post) := by simp
    rw [this, containsCS, ih]
    simp

/-! Support lemmas: a pattern can only match where its first label word
occurs (case-insensitively); hence label-free text yields no matches. -/
theorem matchWordCI_prefixCI {w cs r : List Char}
    (h : matchWordCI w cs = some r) : isPrefixCI w cs = true := by
  induction w generalizing cs with
  | nil => cases cs <;> simp [isPrefixCI]
  | cons p ps ih =>
    cases cs with
    | nil => simp [matchWordCI] at h
    | cons c cs' =>
      by_cases hc : lowerAscii c = p
      · rw [matchWordCI, if_pos hc] at h
        simp [isPrefixCI, hc, ih h]
      · rw [matchWordCI, if_neg hc] at h
        exact absurd h (by simp)

theorem matchLabel_head_prefixCI {w : List Char} {ws : List (List Char)}
    {cs r : List Char} (h : matchLabel (w :: ws) cs = some r) :
    isPrefixCI w cs = true := by
  cases ws with
  | nil => exact matchWordCI_prefixCI (by rw [matchLabel] at h; exact h)
  | cons w2 ws2 =>
    rw [matchLabel] at h
    cases hm : matchWordCI w cs with
    | none => rw [hm] at h; simp at h
    | some r2 => exact matchWordCI_prefixCI hm

theorem matchDatePatAt_prefixCI {w : List Char} {ws : List (List Char)}
    {cs cap : List Char} (h : matchDatePatAt (w :: ws) cs = some cap) :
    isPrefixCI w cs = true := by
  unfold matchDatePatAt at h
  cases hm : matchLabel (w :: ws) cs with
  | none => rw [hm] at h; simp at h
  | some r => exact matchLabel_head_prefixCI hm

theorem matchDatePatAt_label_some {words : List (List Char)}
    {cs cap : List Char} (h : matchDatePatAt words cs = some cap) :
    ∃ r, matchLabel words cs = some r := by
  unfold matchDatePatAt at h
  cases hm : matchLabel words cs with
  | none => rw [hm] at h; simp at h
  | some r => exact ⟨r, rfl⟩

theorem matchCapPatAt_label_some {words : List (List Char)}
    {cs : List Char} {res : List Char × List Char}
    (h : matchCapPatAt words cs = some res) :
    ∃ r, matchLabel words cs = some r := by
  unfold matchCapPatAt at h
  cases hm : matchLabel words cs with
  | none => rw [hm] at h; simp at h
  | some r => exact ⟨r, rfl⟩

theorem matchCapPatAt_prefixCI {w : List Char} {ws : List (List Char)}
    {cs : List Char} {res : List Char × List Char}
    (h : matchCapPatAt (w :: ws) cs = some res) : isPrefixCI w cs = true := by
  unfold matchCapPatAt at h
  cases hm : matchLabel (w :: ws) cs with
  | none => rw [hm] at h; simp at h
  | some r => exact matchLabel_head_prefixCI hm

theorem searchDatePat_eq_none {w : List Char} {ws : List (List Char)}
    {cs : List Char} (h : containsCI w cs = false) :
    searchDatePat (w :: ws) cs = none := by
  induction cs with
  | nil => rfl
  | cons c rest ih =>
    rw [containsCI, Bool.or_eq_false_iff] at h
    rw [searchDatePat]
    cases hm : matchDatePatAt (w :: ws) (c :: rest) with
    | some cap => exact absurd (matchDatePatAt_prefixCI hm) (by simp [h.1])
    | none => exact ih h.2

theorem searchCapPat_eq_none {w : List Char} {ws : List (List Char)}
    {cs : List Char} (h : containsCI w cs = false) :
    searchCapPat (w :: ws) cs = none := by
  induction cs with
  | nil => rfl
  | cons c rest ih =>
    rw [containsCI, Bool.or_eq_false_iff] at h
    rw [searchCapPat]
    cases hm : matchCapPatAt (w :: ws) (c :: rest) with
    | some res => exact absurd (matchCapPatAt_prefixCI hm) (by simp [h.1])
    | none => exact ih h.2

theorem containsCI_cons_false {w : List Char} {c : Char} {rest : List Char}
    (h : containsCI w (c :: rest) = false) : containsCI w rest = false := by
  rw [containsCI, Bool.or_eq_false_iff] at h
  exact h.2

theorem findAllCapPat_eq_nil (w : List Char) (ws : List (List Char)) :
    ∀ (fuel : Nat) (cs : List Char), containsCI w cs = false →
    findAllCapPat (w :: ws) fuel cs = [] := by
  intro fuel
  induction fuel with
  | zero => intro cs _; rfl
  | succ n ih =>
    intro cs h
    cases cs with
    | nil => rfl
    | cons c rest =>
      rw [findAllCapPat]
      cases hm : matchCapPatAt (w :: ws) (c :: rest) with
      | some res =>
        have hp := matchCapPatAt_prefixCI hm
        rw [containsCI, Bool.or_eq_false_iff] at h
        exact absurd hp (by simp [h.1])
      | none => exact ih rest (containsCI_cons_false h)

/-! Support lemmas for the cache. -/
theorem pickLatest_mem {l : List CaseQueryRec} {m : CaseQueryRec}
    (h : pickLatest l = some m) : m ∈ l := by
  induction l with
  | nil => simp [pickLatest] at h
  | cons r rs ih =>
    cases hp : pickLatest rs with
    | none =>
      simp [pickLatest, hp] at h
      simp [h]
    | some m' =>
      simp only [pickLatest, hp] at h
      split_ifs at h with hle
      · have : m' = m := by simpa using h
        subst this
        exact List.mem_cons_of_mem _ (ih hp)
      · have : r = m := by simpa using h
        simp [← this]

theorem pickLatest_isSome {l : List CaseQueryRec} (h : l ≠ []) :
    ∃ m, pickLatest l = some m := by
  cases l with
  | nil => exact absurd rfl h
  | cons r rs =>
    cases hp : pickLatest rs with
    | none => exact ⟨r, by simp [pickLatest, hp]⟩
    | some m' =>
      by_cases hle : r.queryTimestamp ≤ m'.queryTimestamp
      · exact ⟨m', by simp [pickLatest, hp, hle]⟩
      · exact ⟨r, by simp [pickLatest, hp, hle]⟩

/-! ## Claim theorems -/
/-- **C4** — The claimed cache behaviour is unimplementable by this code:
the candidate query works, but evaluating the freshness window raises an
`AttributeError` (`db.func.now().timestamp()` does not exist), and the
`cached_query and (...)` short-circuit makes the raise fire exactly when an
identity-equal `success=true` record is stored.  Hence no lookup ever
completes with a hit — a store of a successful record followed by a lookup of
the same identity raises instead of hitting, however fresh the record — and a
store holding no successful record for the identity is a plain miss. -/
theorem cache_lookup_always_raises (store : List CaseQueryRec)
    (ct cn : String) (fy : Int) :
    (∀ q : CaseQueryRec,
      cacheLookupAttempt store ct cn fy ≠ .ok (some q)) ∧
    ((∃ r ∈ store, r.caseType = ct ∧ r.caseNumber = cn ∧
        r.filingYear = fy ∧ r.success = true) ↔
      cacheLookupAttempt store ct cn fy = .error cacheAttrError) := by
  constructor
  · intro q
    unfold cacheLookupAttempt
    cases hp : pickLatest (store.filter (cacheCandidate ct cn fy)) with
    | none => simp
    | some m => simp
  · constructor
    · rintro ⟨r, hr, h1, h2, h3, h4⟩
      unfold cacheLookupAttempt
      have hrf : r ∈ store.filter (cacheCandidate ct cn fy) := by
        rw [List.mem_filter]
        refine ⟨hr, ?_⟩
        simp [cacheCandidate, h1, h2, h3, h4]
      obtain ⟨m, hm⟩ := pickLatest_isSome
        (l := store.filter (cacheCandidate ct cn fy))
        (by intro hnil; rw [hnil] at hrf; simp at hrf)
      rw [hm]
    · intro h
      unfold cacheLookupAttempt at h
      cases hp : pickLatest (store.filter (cacheCandidate ct cn fy)) with
      | none => rw [hp] at h; simp at h
      | some m =>
        have hmem := pickLatest_mem hp
        rw [List.mem_filter] at hmem
        have hcand := hmem.2
        simp only [cacheCandidate, decide_eq_true_eq] at hcand
        exact ⟨m, hmem.1, hcand.1, hcand.2.1, hcand.2.2.1, hcand.2.2.2⟩

/-- Witness for C4: storing one fresh successful record and looking up the
same identity raises the `AttributeError` instead of returning the record. -/
theorem cache_lookup_always_raises_witness :
    cacheLookupAttempt
      [{ caseType := "W.P.(C)", caseNumber := "123", filingYear := 2020,
         queryTimestamp := 1000, success := true }] "W.P.(C)" "123" 2020 =
      .error cacheAttrError :=
  (cache_lookup_always_raises
      [{ caseType := "W.P.(C)", caseNumber := "123", filingYear := 2020,
         queryTimestamp := 1000, success := true }]
      "W.P.(C)" "123" 2020).2.mp
    ⟨{ caseType := "W.P.(C)", caseNumber := "123", filingYear := 2020,
       queryTimestamp := 1000, success := true },
     List.mem_cons_self _ _, rfl, rfl, rfl, rfl⟩

/-- **C2** — When the dynamic strategy raises and the fallback strategy also
raises, `scrape_case_data` returns (rather than raising — the function is
total into `PyDict`) a `success=false` dict whose error detail is a combined
message containing both failure causes verbatim. -/
theorem both_paths_fail_combined (seleniumError requestsError : String) :
    scrapeCaseDataGen (.error seleniumError) (.error requestsError) =
      [("success", .b false),
       ("error", .s ("Both scraping methods failed. Selenium error: "
         ++ seleniumError ++ ", Requests error: " ++ requestsError)),
       ("html", .s "")] ∧
    containsCS seleniumError.data
      ("Both scraping methods failed. Selenium error: " ++ seleniumError
        ++ ", Requests error: " ++ requestsError).data = true ∧
    containsCS requestsError.data
      ("Both scraping methods failed. Selenium error: " ++ seleniumError
        ++ ", Requests error: " ++ requestsError).data = true := by
  refine ⟨rfl, ?_, ?_⟩
  · have h : ("Both scraping methods failed. Selenium error: "
        ++ seleniumError ++ ", Requests error: " ++ requestsError).data =
      "Both scraping methods failed. Selenium error: ".data
        ++ seleniumError.data
        ++ (", Requests error: ".data ++ requestsError.data) := by
      simp [String.data_append]
    rw [h]
    exact containsCS_of_append _ _ _
  · have h : ("Both scraping methods failed. Selenium error: "
        ++ seleniumError ++ ", Requests error: " ++ requestsError).data =
      ("Both scraping methods failed. Selenium error: ".data
        ++ seleniumError.data ++ ", Requests error: ".data)
        ++ requestsError.data ++ [] := by
      simp [String.data_append]
    rw [h]
    exact containsCS_of_append _ _ _

/-- **C1 (amended)** — The orchestrator's fallback path is invoked exactly
when the dynamic path raises an exception out of `_scrape_with_selenium`,
i.e. when driver setup or the initial navigation fails (DriverError).
`TimedOut`, `Ambiguous`, `NotFound` and parse failures are caught inside the
dynamic path and returned directly, with no fallback attempt. -/
theorem fallback_iff_driver_exception (env : DriveEnv)
    (ct cn : String) (fy : Int) :
    (scrapeCaseDataTraced env ct cn fy).2 =
      (env.setupErr.isSome || env.navErr.isSome) := by
  cases hse : env.setupErr with
  | some e => simp [scrapeCaseDataTraced, scrapeWithSelenium, hse]
  | none =>
    cases hne : env.navErr with
    | some e => simp [scrapeCaseDataTraced, scrapeWithSelenium, hse, hne]
    | none =>
      by_cases hc :
          dget (searchCaseWithSelenium env ct cn fy) "success" =
            some (.b true) <;>
        simp [scrapeCaseDataTraced, scrapeWithSelenium, hse, hne, hc]

/-- **C1 (counterexample)** — A dynamic-path run that fails with `TimedOut`
(`timeoutEnv`) is returned directly as a `success=false` record and the
fallback is *not* invoked (trace flag `false`), although the fallback
(`_scrape_with_requests`) would have produced a `success=true` record: the
returned `success` value does not reflect any fallback outcome. -/
theorem timedout_returns_without_fallback :
    scrapeCaseDataTraced timeoutEnv "W.P.(C)" "123" 2020 =
      ([("success", .b false),
        ("error", .s "Page load timeout - court website may be down"),
        ("html", .s "<html><body>loading</body></html>")], false) ∧
    dget (scrapeWithRequests "W.P.(C)" "123" 2020) "success" =
      some (.b true) := by
  exact ⟨rfl, rfl⟩

/-- **C9 (counterexample)** — The claim "there exist two runs on the same
post-submission markup, differing only in whether a CAPTCHA-like element was
detected, whose classification differs" is false: the Form Driver's
classification is provably identical for any two such runs (the result of
`_handle_captcha` is computed and then never read). -/
theorem no_captcha_dependent_classification :
    ¬ ∃ (env : DriveEnv) (b1 b2 : Bool) (ct cn : String) (fy : Int),
        searchCaseWithSelenium { env with captchaPresent := b1 } ct cn fy ≠
          searchCaseWithSelenium { env with captchaPresent := b2 } ct cn fy := by
  rintro ⟨env, b1, b2, ct, cn, fy, hne⟩
  exact hne (by cases env; rfl)

/-- **C9 (amended)** — Classification is independent of challenge detection:
for every environment, flipping only the CAPTCHA-detected flag leaves the
Form Driver's returned dict (outcome and error kind) unchanged. -/
theorem classification_ignores_captcha (env : DriveEnv) (b : Bool)
    (ct cn : String) (fy : Int) :
    searchCaseWithSelenium { env with captchaPresent := b } ct cn fy =
      searchCaseWithSelenium env ct cn fy := by
  cases env; rfl

theorem endsWithCS_append (s xs : List Char) :
    endsWithCS s (xs ++ s) = true := by
  unfold endsWithCS
  rw [List.reverse_append]
  exact isPrefixCS_append _ _

theorem endsWithCS_ne_nil {s l : List Char} (hs : s ≠ [])
    (h : endsWithCS s l = true) : l ≠ [] := by
  intro hl
  subst hl
  unfold endsWithCS at h
  cases hrev : s.reverse with
  | nil => exact hs (by simpa using hrev)
  | cons c cs => rw [hrev] at h; simp [isPrefixCS] at h

/-- **C3** — `_scrape_with_requests` (the static fallback) returns a dict
with exactly the key set of a dynamic-path success dict
(`_parse_case_details`): `success`, `parties_name`, `filing_date`,
`next_hearing_date`, `case_status`, `pdf_links`, `raw_html`.  No provenance
marker exists: no field is present on fallback results and absent from
dynamic-path results. -/
theorem fallback_no_provenance_marker (ct cn : String) (fy : Int)
    (page : Soup) (currentUrl : String) :
    dkeys (scrapeWithRequests ct cn fy) =
      ["success", "parties_name", "filing_date", "next_hearing_date",
       "case_status", "pdf_links", "raw_html"] ∧
    dkeys (parseCaseDetails page currentUrl) =
      ["success", "parties_name", "filing_date", "next_hearing_date",
       "case_status", "pdf_links", "raw_html"] :=
  ⟨rfl, rfl⟩

/-- **C7** — `download_pdf` rejects a response whose Content-Type does not
contain "pdf" when the URL also does not end in ".pdf" (case-insensitively),
returning a `success=false` dict with an error detail; and every
transport-level failure is likewise returned as a `success=false` dict with
the underlying cause, never raised (the function is total into `PyDict`). -/
theorem download_rejects_non_pdf (url : String) (now : Nat)
    (contentTypeHdr : Option String) (content : String)
    (hct : containsCS "pdf".data
      ((contentTypeHdr.getD "").data.map lowerAscii) = false)
    (hurl : endsWithCI ".pdf".data url.data = false) :
    downloadPdf url now (.resp contentTypeHdr content) =
      [("success", .b false),
       ("error", .s "URL does not point to a PDF file")] ∧
    (∀ e : String, downloadPdf url now (.exc e) =
      [("success", .b false),
       ("error", .s ("Download failed: " ++ e))]) := by
  constructor
  · simp [downloadPdf, hct, hurl]
  · intro e
    rfl

/-- Witness for C7: a 200 response with Content-Type `text/html` for a URL
not ending in ".pdf" is rejected. -/
theorem download_rejects_non_pdf_witness :
    downloadPdf "https://example.org/page" 0
        (.resp (some "text/html") "<h1>error page</h1>") =
      [("success", .b false),
       ("error", .s "URL does not point to a PDF file")] :=
  (download_rejects_non_pdf "https://example.org/page" 0
    (some "text/html") "<h1>error page</h1>" (by decide) (by decide)).1

/-- **C10** — For every URL the derived filename is a nonempty string ending
in ".pdf": it is the URL path's last segment when that segment ends in
".pdf", and otherwise the generated `court_document_<now>.pdf` name. -/
theorem filename_always_pdf (url : String) (now : Nat) :
    extractFilenameFromUrl url now ≠ "" ∧
    endsWithCS ".pdf".data (extractFilenameFromUrl url now).data = true ∧
    (endsWithCS ".pdf".data (lastSegment (urlPath url.data)) = true →
      extractFilenameFromUrl url now =
        String.mk (lastSegment (urlPath url.data))) ∧
    (endsWithCS ".pdf".data (lastSegment (urlPath url.data)) = false →
      extractFilenameFromUrl url now =
        "court_document_" ++ toString now ++ ".pdf") := by
  have hgen : endsWithCS ".pdf".data
      ("court_document_" ++ toString now ++ ".pdf").data = true := by
    have hd : ("court_document_" ++ toString now ++ ".pdf").data =
        ("court_document_".data ++ (toString now).data) ++ ".pdf".data := by
      simp [String.data_append]
    rw [hd]
    exact endsWithCS_append _ _
  have hgenne : ("court_document_" ++ toString now ++ ".pdf" : String) ≠ "" := by
    intro h
    apply endsWithCS_ne_nil (s := ".pdf".data) (by decide) hgen
    rw [h]
  by_cases hend :
      endsWithCS ".pdf".data (lastSegment (urlPath url.data)) = true
  · have hne : lastSegment (urlPath url.data) ≠ [] :=
      endsWithCS_ne_nil (by decide) hend
    have hres : extractFilenameFromUrl url now =
        String.mk (lastSegment (urlPath url.data)) := by
      unfold extractFilenameFromUrl
      simp [hend, hne]
    refine ⟨?_, ?_, fun _ => hres, fun hf => absurd hend (by simp [hf])⟩
    · rw [hres]
      intro hcontra
      exact hne (by simpa using congrArg String.data hcontra)
    · rw [hres]
      exact hend
  · have hend' : endsWithCS ".pdf".data (lastSegment (urlPath url.data)) =
        false := by simpa using hend
    have hres : extractFilenameFromUrl url now =
        "court_document_" ++ toString now ++ ".pdf" := by
      unfold extractFilenameFromUrl
      simp [hend']
    exact ⟨hres ▸ hgenne, hres ▸ hgen,
      fun hf => absurd hf hend, fun _ => hres⟩

/-- Witness for C10 at concrete URLs: a ".pdf" last segment is kept, any
other path gets the generated name. -/
theorem filename_always_pdf_witness :
    extractFilenameFromUrl "https://e.org/a/b.pdf?x=1" 7 = "b.pdf" ∧
    extractFilenameFromUrl "https://e.org/a/" 7 = "court_document_7.pdf" :=
  ⟨((filename_always_pdf "https://e.org/a/b.pdf?x=1" 7).2.2.1
      (by decide)).trans (by decide),
   ((filename_always_pdf "https://e.org/a/" 7).2.2.2
      (by decide)).trans (by decide)⟩

theorem extractPdfLinks_foldl_eq (base : String) (anchors : List Anchor) :
    ∀ acc : List PdfLink,
      anchors.foldl
        (fun acc a =>
          if isDocLink a.href.data (pyStrip a.text.data) then
            acc ++ [mkPdfLink base a]
          else acc)
        acc =
      acc ++ (anchors.filter
        (fun a => isDocLink a.href.data (pyStrip a.text.data))).map
        (mkPdfLink base) := by
  induction anchors with
  | nil => intro acc; simp
  | cons a as ih =>
    intro acc
    by_cases hq : isDocLink a.href.data (pyStrip a.text.data) = true
    · simp [List.foldl_cons, List.filter_cons, hq, ih]
    · have hq' : isDocLink a.href.data (pyStrip a.text.data) = false := by
        simpa using hq
      simp [List.foldl_cons, List.filter_cons, hq', ih]

/-- **C6** — The link extractor emits exactly the anchors whose href ends in
".pdf" case-insensitively, or whose href contains "pdf" (case-insensitively,
as the source lower-cases the href first), or whose stripped visible text
contains one of "order"/"judgment"/"download"/"pdf" case-insensitively — in
document order, without deduplication, each resolved against the base URL
with the stripped text (or "Download PDF") as label; and it resolves the
spec's example anchor to `https://example.org/case/docs/order1.pdf` with
label "Interim Order" while a text-keyword-only anchor also qualifies and a
keyword-free non-pdf anchor does not. -/
theorem link_extractor_characterization :
    (∀ (anchors : List Anchor) (baseUrl : String),
      extractPdfLinks anchors baseUrl =
        (anchors.filter (fun a =>
          endsWithCI ".pdf".data a.href.data ||
          containsCI "pdf".data a.href.data ||
          linkTextKeywords.any
            (fun kw => containsCI kw (pyStrip a.text.data)))).map
          (mkPdfLink baseUrl)) ∧
    extractPdfLinks [{ href := "docs/order1.pdf", text := "Interim Order" }]
        "https://example.org/case/" =
      [{ url := "https://example.org/case/docs/order1.pdf",
         text := "Interim Order" }] ∧
    extractPdfLinks [{ href := "view?id=1", text := "Download Judgment" }]
        "https://example.org/case/" =
      [{ url := "https://example.org/case/view?id=1",
         text := "Download Judgment" }] ∧
    extractPdfLinks [{ href := "notes.html", text := "see notes" }]
        "https://example.org/case/" = [] := by
  refine ⟨?_, by decide, by decide, by decide⟩
  intro anchors baseUrl
  have h := extractPdfLinks_foldl_eq baseUrl anchors []
  unfold extractPdfLinks
  rw [h]
  simp [isDocLink]

theorem isPrefixCI_containsCI {w cs : List Char}
    (h : isPrefixCI w cs = true) : containsCI w cs = true := by
  cases cs with
  | nil =>
    cases w with
    | nil => rfl
    | cons p ps => simp [isPrefixCI] at h
  | cons c rest => rw [containsCI]; simp [h]

theorem containsCI_append_left (pre : List Char) {w l : List Char}
    (h : containsCI w l = true) : containsCI w (pre ++ l) = true := by
  induction pre with
  | nil => simpa using h
  | cons c rest ih =>
    rw [List.cons_append]
    cases hx : rest ++ l with
    | nil =>
      rcases List.append_eq_nil.mp hx with ⟨h1, h2⟩
      subst h1; subst h2
      rw [containsCI]
      simp [h]
    | cons d ds =>
      rw [← hx, containsCI, hx]
      rw [← hx]
      simp [ih]

theorem matchWordCI_suffix {w cs r : List Char}
    (h : matchWordCI w cs = some r) : ∃ pre, cs = pre ++ r := by
  induction w generalizing cs with
  | nil =>
    refine ⟨[], ?_⟩
    have : cs = r := by simpa [matchWordCI] using h
    simp [this]
  | cons p ps ih =>
    cases cs with
    | nil => simp [matchWordCI] at h
    | cons c cs' =>
      by_cases hc : lowerAscii c = p
      · rw [matchWordCI, if_pos hc] at h
        obtain ⟨pre, hpre⟩ := ih h
        exact ⟨c :: pre, by simp [hpre]⟩
      · rw [matchWordCI, if_neg hc] at h
        exact absurd h (by simp)

theorem matchSpaces1_suffix {cs r : List Char}
    (h : matchSpaces1 cs = some r) : ∃ pre, cs = pre ++ r := by
  cases cs with
  | nil => simp [matchSpaces1] at h
  | cons c rest =>
    by_cases hc : isPySpace c = true
    · rw [matchSpaces1, if_pos hc] at h
      have hr : r = rest.dropWhile isPySpace := by simpa using h.symm
      refine ⟨c :: rest.takeWhile isPySpace, ?_⟩
      rw [hr, List.cons_append, List.takeWhile_append_dropWhile]
    · rw [matchSpaces1, if_neg hc] at h
      exact absurd h (by simp)

theorem matchLabel_words_containsCI :
    ∀ (words : List (List Char)) (cs r : List Char),
      matchLabel words cs = some r →
      ∀ w ∈ words, containsCI w cs = true := by
  intro words
  induction words with
  | nil => simp
  | cons w ws ih =>
    intro cs r h w' hw'
    rcases List.mem_cons.mp hw' with hww | hw'
    · subst hww
      exact isPrefixCI_containsCI (matchLabel_head_prefixCI h)
    · cases ws with
      | nil => simp at hw'
      | cons w2 ws2 =>
        rw [matchLabel] at h
        cases hm : matchWordCI w cs with
        | none => rw [hm] at h; simp at h
        | some r1 =>
          rw [hm] at h
          simp only [Option.some_bind] at h
          cases hs : matchSpaces1 r1 with
          | none => rw [hs] at h; simp at h
          | some r2 =>
            rw [hs] at h
            simp only [Option.some_bind] at h
            have hcon := ih r2 r h w' hw'
            obtain ⟨p1, hp1⟩ := matchWordCI_suffix hm
            obtain ⟨p2, hp2⟩ := matchSpaces1_suffix hs
            rw [hp1, hp2]
            exact containsCI_append_left _ (containsCI_append_left _ hcon)

theorem searchDatePat_none_of_word (words : List (List Char))
    (w : List Char) (hw : w ∈ words) :
    ∀ cs : List Char, containsCI w cs = false →
      searchDatePat words cs = none := by
  intro cs
  induction cs with
  | nil => intro _; rfl
  | cons c rest ih =>
    intro h
    rw [searchDatePat]
    cases hm : matchDatePatAt words (c :: rest) with
    | some cap =>
      exfalso
      obtain ⟨r, ml⟩ := matchDatePatAt_label_some hm
      have := matchLabel_words_containsCI words _ r ml w hw
      rw [this] at h
      exact Bool.true_eq_false.mp h
    | none => exact ih (containsCI_cons_false h)

theorem searchCapPat_none_of_word (words : List (List Char))
    (w : List Char) (hw : w ∈ words) :
    ∀ cs : List Char, containsCI w cs = false →
      searchCapPat words cs = none := by
  intro cs
  induction cs with
  | nil => intro _; rfl
  | cons c rest ih =>
    intro h
    rw [searchCapPat]
    cases hm : matchCapPatAt words (c :: rest) with
    | some res =>
      exfalso
      obtain ⟨r, ml⟩ := matchCapPatAt_label_some hm
      have := matchLabel_words_containsCI words _ r ml w hw
      rw [this] at h
      exact Bool.true_eq_false.mp h
    | none => exact ih (containsCI_cons_false h)

/-- **C5** — Each of the four field extractors is a total function into
`String` (never null), and when none of its patterns can match — in
particular whenever the text does not even contain the pattern labels — it
returns its specific "not found" sentinel, and each sentinel is a non-empty
string distinct from `""`.  In particular, markup whose text has no
petitioner/respondent/appellant/plaintiff/defendant-labelled text yields
exactly the parties sentinel. -/
theorem extractors_return_sentinels (t : String) :
    ((containsCI "petitioner".data (t.data.map lowerAscii) = false) →
     (containsCI "respondent".data (t.data.map lowerAscii) = false) →
     (containsCI "appellant".data (t.data.map lowerAscii) = false) →
     (containsCI "plaintiff".data (t.data.map lowerAscii) = false) →
     (containsCI "defendant".data (t.data.map lowerAscii) = false) →
      extractParties t = "Parties information not found") ∧
    ((containsCI "filed".data t.data = false) →
     (containsCI "filing".data t.data = false) →
      extractFilingDate t = "Filing date not found") ∧
    ((containsCI "next".data t.data = false) →
     (containsCI "hearing".data t.data = false) →
      extractNextHearing t = "Next hearing date not found") ∧
    ((containsCI "status".data t.data = false) →
     (containsCI "stage".data t.data = false) →
      extractCaseStatus t = "Case status not found") ∧
    ("Parties information not found" : String) ≠ "" ∧
    ("Filing date not found" : String) ≠ "" ∧
    ("Next hearing date not found" : String) ≠ "" ∧
    ("Case status not found" : String) ≠ "" := by
  refine ⟨?_, ?_, ?_, ?_, by decide, by decide, by decide, by decide⟩
  · intro h1 h2 h3 h4 h5
    have e1 := findAllCapPat_eq_nil "petitioner".data []
      (t.data.map lowerAscii).length _ h1
    have e2 := findAllCapPat_eq_nil "respondent".data []
      (t.data.map lowerAscii).length _ h2
    have e3 := findAllCapPat_eq_nil "appellant".data []
      (t.data.map lowerAscii).length _ h3
    have e4 := findAllCapPat_eq_nil "plaintiff".data []
      (t.data.map lowerAscii).length _ h4
    have e5 := findAllCapPat_eq_nil "defendant".data []
      (t.data.map lowerAscii).length _ h5
    simp only [extractParties, partyLabels, List.foldl_cons, List.foldl_nil,
      e1, e2, e3, e4, e5, List.map_nil, List.append_nil, List.nil_append,
      List.isEmpty_nil, if_true]
  · intro h1 h2
    have s1 := searchDatePat_none_of_word
      ["filed".data, "on".data] "filed".data (by simp) t.data h1
    have s2 := searchDatePat_none_of_word
      ["filing".data, "date".data] "filing".data (by simp) t.data h2
    have s3 := searchDatePat_none_of_word
      ["date".data, "of".data, "filing".data] "filing".data
      (by simp) t.data h2
    simp only [extractFilingDate, filingDateLabels, searchFirstDate,
      s1, s2, s3]
  · intro h1 h2
    have s1 := searchDatePat_none_of_word
      ["next".data, "hearing".data] "next".data (by simp) t.data h1
    have s2 := searchDatePat_none_of_word
      ["next".data, "date".data] "next".data (by simp) t.data h1
    have s3 := searchDatePat_none_of_word
      ["hearing".data, "date".data] "hearing".data (by simp) t.data h2
    simp only [extractNextHearing, nextHearingLabels, searchFirstDate,
      s1, s2, s3]
  · intro h1 h2
    have s1 := searchCapPat_none_of_word
      ["status".data] "status".data (by simp) t.data h1
    have s2 := searchCapPat_none_of_word
      ["stage".data] "stage".data (by simp) t.data h2
    have s3 := searchCapPat_none_of_word
      ["current".data, "status".data] "status".data (by simp) t.data h1
    simp only [extractCaseStatus, statusLabels, searchFirstCap, s1, s2, s3]

/-- Witness for C5 at the concrete text "hello world", which contains none of
the extractors' labels: all four extractors return their sentinels. -/
theorem extractors_return_sentinels_witness :
    extractParties "hello world" = "Parties information not found" ∧
    extractFilingDate "hello world" = "Filing date not found" ∧
    extractNextHearing "hello world" = "Next hearing date not found" ∧
    extractCaseStatus "hello world" = "Case status not found" :=
  ⟨(extractors_return_sentinels "hello world").1
      (by decide) (by decide) (by decide) (by decide) (by decide),
   (extractors_return_sentinels "hello world").2.1 (by decide) (by decide),
   (extractors_return_sentinels "hello world").2.2.1 (by decide) (by decide),
   (extractors_return_sentinels "hello world").2.2.2.1
      (by decide) (by decide)⟩

theorem matchTwoDigits_spec {cs d r : List Char}
    (h : matchTwoDigits cs = some (d, r)) :
    d.all isDigitCh = true ∧ 1 ≤ d.length ∧ d.length ≤ 2 := by
  simp only [matchTwoDigits] at h
  split_ifs at h with hc
  · simp only [Option.some.injEq, Prod.mk.injEq] at h
    rcases h with ⟨h1, _⟩
    subst h1
    exact ⟨List.all_eq_true.mpr (fun x hx => List.mem_takeWhile_imp hx),
      hc.1, hc.2⟩

theorem matchSep_spec {cs r : List Char} {s : Char}
    (h : matchSep cs = some (s, r)) : s = '-' ∨ s = '/' := by
  cases cs with
  | nil => simp [matchSep] at h
  | cons c rest =>
    by_cases hc : c = '-' ∨ c = '/'
    · rw [matchSep, if_pos hc] at h
      simp only [Option.some.injEq, Prod.mk.injEq] at h
      rcases h with ⟨h1, _⟩
      subst h1
      exact hc
    · rw [matchSep, if_neg hc] at h
      simp at h

theorem matchYear_spec {cs y r : List Char}
    (h : matchYear cs = some (y, r)) :
    y.all isDigitCh = true ∧ 2 ≤ y.length ∧ y.length ≤ 4 := by
  simp only [matchYear] at h
  split_ifs at h with hc
  · simp only [Option.some.injEq, Prod.mk.injEq] at h
    rcases h with ⟨h1, _⟩
    subst h1
    refine ⟨List.all_eq_true.mpr
      (fun x hx => List.mem_takeWhile_imp (List.take_subset _ _ hx)),
      ?_, ?_⟩
    · rw [List.length_take]; omega
    · rw [List.length_take]; omega

theorem matchDate_shape {cs cap rest : List Char}
    (h : matchDate cs = some (cap, rest)) : dateTokenShape cap := by
  unfold matchDate at h
  cases h1 : matchTwoDigits cs with
  | none => rw [h1] at h; simp at h
  | some dr1 =>
    rw [h1] at h
    simp only [Option.some_bind] at h
    cases h2 : matchSep dr1.2 with
    | none => rw [h2] at h; simp at h
    | some sr1 =>
      rw [h2] at h
      simp only [Option.some_bind] at h
      cases h3 : matchTwoDigits sr1.2 with
      | none => rw [h3] at h; simp at h
      | some dr2 =>
        rw [h3] at h
        simp only [Option.some_bind] at h
        cases h4 : matchSep dr2.2 with
        | none => rw [h4] at h; simp at h
        | some sr2 =>
          rw [h4] at h
          simp only [Option.some_bind] at h
          cases h5 : matchYear sr2.2 with
          | none => rw [h5] at h; simp at h
          | some yr =>
            rw [h5] at h
            simp only [Option.map_some', Option.some.injEq,
              Prod.mk.injEq] at h
            obtain ⟨hcap, _⟩ := h
            obtain ⟨ha1, hl1, hl1'⟩ := matchTwoDigits_spec h1
            obtain hs1 := matchSep_spec h2
            obtain ⟨ha2, hl2, hl2'⟩ := matchTwoDigits_spec h3
            obtain hs2 := matchSep_spec h4
            obtain ⟨ha3, hl3, hl3'⟩ := matchYear_spec h5
            refine ⟨dr1.1, dr2.1, yr.1, sr1.1, sr2.1, ?_,
              ha1, ha2, ha3, hl1, hl1', hl2, hl2', hl3, hl3', hs1, hs2⟩
            rw [← hcap]
            simp

theorem matchDatePatAt_shape {words : List (List Char)} {cs cap : List Char}
    (h : matchDatePatAt words cs = some cap) : dateTokenShape cap := by
  unfold matchDatePatAt at h
  cases ml : matchLabel words cs with
  | none => rw [ml] at h; simp at h
  | some r =>
    rw [ml] at h
    simp only [Option.some_bind] at h
    cases md : matchDate (r.dropWhile isColonSpace) with
    | none => rw [md] at h; simp at h
    | some pr =>
      rw [md] at h
      simp only [Option.map_some', Option.some.injEq] at h
      exact h ▸ matchDate_shape md

theorem searchDatePat_shape {words : List (List Char)} :
    ∀ {cs cap : List Char}, searchDatePat words cs = some cap →
      dateTokenShape cap := by
  intro cs
  induction cs with
  | nil => intro cap h; simp [searchDatePat] at h
  | cons c rest ih =>
    intro cap h
    rw [searchDatePat] at h
    revert h
    cases hm : matchDatePatAt words (c :: rest) with
    | some cap2 =>
      intro h
      simp only [Option.some.injEq] at h
      exact h ▸ matchDatePatAt_shape hm
    | none =>
      intro h
      exact ih h

theorem searchFirstDate_shape :
    ∀ (pats : List (List (List Char))) {cs cap : List Char},
      searchFirstDate pats cs = some cap → dateTokenShape cap := by
  intro pats
  induction pats with
  | nil => intro cs cap h; simp [searchFirstDate] at h
  | cons p ps ih =>
    intro cs cap h
    rw [searchFirstDate] at h
    revert h
    cases hs : searchDatePat p cs with
    | some cap2 =>
      intro h
      simp only [Option.some.injEq] at h
      exact h ▸ searchDatePat_shape hs
    | none =>
      intro h
      exact ih h

/-- **C8 (amended)** — Filing-date extraction applies its ordered
label-prefixed patterns ("filed on", "filing date", "date of filing") and
returns the date token captured by the first pattern that matches, accepting
1-2 digit day/month and 2-to-4 digit year (greedy) separated by '-' or '/';
in particular it extracts "05-03-2019" from "Filed on: 05-03-2019", and the
pattern-list order (not text order) decides which match wins. -/
theorem filing_date_extraction_shape :
    (∀ t : String, extractFilingDate t ≠ "Filing date not found" →
      dateTokenShape (extractFilingDate t).data) ∧
    extractFilingDate "Filed on: 05-03-2019" = "05-03-2019" ∧
    extractFilingDate "Date of filing: 01-01-2001 and Filed on: 02-02-2002" =
      "02-02-2002" := by
  refine ⟨?_, by decide, by decide⟩
  intro t ht
  unfold extractFilingDate at ht ⊢
  revert ht
  cases hs : searchFirstDate filingDateLabels t.data with
  | none => intro ht; exact absurd rfl ht
  | some cap =>
    intro _
    exact searchFirstDate_shape filingDateLabels hs

/-- Witness for C8: the shape property holds at the concrete text
"Filed on: 05-03-2019", where the extractor does not return its sentinel. -/
theorem filing_date_extraction_shape_witness :
    dateTokenShape (extractFilingDate "Filed on: 05-03-2019").data :=
  filing_date_extraction_shape.1 "Filed on: 05-03-2019" (by decide)

/-- **C8 (counterexample)** — On "Filed on: 05-03-019" the source's extractor
returns "05-03-019", whose year token has three digits; an extractor
accepting only "2 or 4 digit" years — the claim's wording, modelled by
`extractFilingDateSpec24` — returns "05-03-01" on the same markup, so the
claim's description of the accepted year widths contradicts the code. -/
theorem filing_date_three_digit_year :
    extractFilingDate "Filed on: 05-03-019" = "05-03-019" ∧
    extractFilingDateSpec24 "Filed on: 05-03-019" = "05-03-01" ∧
    extractFilingDateSpec24 "Filed on: 05-03-019" ≠
      extractFilingDate "Filed on: 05-03-019" :=
  ⟨by decide, by decide, by decide⟩

end CourtFetcher
